import Mathlib

/-!
A shallow embedding of `scripts/add_rule.py`, the rule-scaffolding generator of the
fortitude repository, together with proofs settling the specification claims about it.

File contents are modelled as `String`s (and, where the Python code iterates over a
file, as lists of physical lines).  All helper functions are written as executable,
structurally recursive definitions so that concrete runs evaluate by `decide`/`rfl`.
-/

/-- Characters treated as whitespace by Python's `str.strip()` (space, tab, newline,
carriage return, vertical tab, form feed). -/
def isPySpace (c : Char) : Bool :=
  c == ' ' || c == '\t' || c == '\n' || c == '\r' || c == '\x0b' || c == '\x0c'

/-- Python `s.strip()` with no argument: remove leading and trailing whitespace. -/
def pyStrip (s : String) : String :=
  ⟨((s.data.dropWhile isPySpace).reverse.dropWhile isPySpace).reverse⟩

/-- Modelled from the spec: `get_indent` is imported from the repository's `_utils`
module, which is not among the provided sources.  Per spec §4.4 the annotation uses
"the same indentation as surrounding lines"; we model `get_indent line` as the
leading whitespace of `line` (the part removed by `lstrip`). -/
def get_indent (line : String) : String :=
  ⟨line.data.takeWhile isPySpace⟩

/-- Modelled from the spec: `pascal_case` is imported from the missing `_utils`
module.  Spec §3 calls its result the `category_variant`, the "declaration case"
form: first letter of each word capitalized, no separators; words are split on
spaces, hyphens and underscores. -/
def pascalCaseChars : List Char → Bool → List Char
  | [], _ => []
  | c :: rest, atStart =>
    if c == ' ' || c == '-' || c == '_' then pascalCaseChars rest true
    else (if atStart then c.toUpper else c) :: pascalCaseChars rest false

/-- Modelled from the spec: see `pascalCaseChars`. -/
def pascal_case (s : String) : String := ⟨pascalCaseChars s.data true⟩

/-- Source line 156: `category.split(" ")[0].replace("-", "_")` — the text before the
first space, with every hyphen replaced by an underscore. -/
def linterName (category : String) : String :=
  ⟨(category.data.takeWhile (fun c => !(c == ' '))).map
    (fun c => if c == '-' then '_' else c)⟩

/-- Worker for `pySplitBlank`: Python's `contents.split(sep)` with the two-newline
separator, scanning left to right, non-overlapping; `acc` holds the reversed
characters of the current part. -/
def splitBlankAux : List Char → List Char → List (List Char)
  | [], acc => [acc.reverse]
  | [c], acc => [(c :: acc).reverse]
  | c :: d :: rest, acc =>
    if c == '\n' && d == '\n' then acc.reverse :: splitBlankAux rest []
    else splitBlankAux (d :: rest) (c :: acc)

/-- Source line 75: `contents.split` on the blank-line separator (a doubled newline).
On an empty string this returns `[""]`, exactly as in Python. -/
def pySplitBlank (s : String) : List String :=
  (splitBlankAux s.data []).map (fun l => ⟨l⟩)

/-- Worker for `physLines`. -/
def physLinesAux : List Char → List Char → List (List Char)
  | [], [] => []
  | [], acc => [acc.reverse]
  | '\n' :: rest, acc => (acc.reverse ++ ['\n']) :: physLinesAux rest []
  | c :: rest, acc => physLinesAux rest (c :: acc)

/-- Python file iteration (`next(fp)`, `fp.read()` framing): the physical lines of a
content string, each including its terminating newline; a final unterminated line is
yielded without one.  An empty file yields no lines (so `next` raises at once). -/
def physLines (s : String) : List String := (physLinesAux s.data []).map (fun l => ⟨l⟩)

/-- Does a character list contain two consecutive newlines (an occurrence of the
blank-line separator)? -/
def hasNN : List Char → Bool
  | [] => false
  | [_] => false
  | c :: d :: rest => (c == '\n' && d == '\n') || hasNN (d :: rest)

/-- Join lines with single newlines: the text of a block of lines inside a file,
without a trailing newline. -/
def interNL : List String → String
  | [] => ""
  | [l] => l
  | l :: l' :: ls => l ++ "\n" ++ interNL (l' :: ls)

/-- A block line as they occur in the registry files: non-empty and without an
embedded newline. -/
def niceLine (l : String) : Bool :=
  !(l.data.isEmpty) && l.data.all (fun c => !(c == '\n'))

/-- Lexicographic comparison of character lists by code point: `listCharLe a b` is
`true` iff `a <= b` in Python's string order. -/
def listCharLe : List Char → List Char → Bool
  | [], _ => true
  | _ :: _, [] => false
  | a :: as, b :: bs => if a < b then true else if b < a then false else listCharLe as bs

/-- Python's `<=` on strings; `list.sort()` sorts into nondecreasing order for it. -/
def strLe (a b : String) : Bool := listCharLe a.data b.data

/-- `strLe` as a relation, for use with `List.insertionSort` and `List.Sorted`. -/
def strLeP (a b : String) : Prop := strLe a b = true

instance : DecidableRel strLeP := fun a b => inferInstanceAs (Decidable (strLe a b = true))

instance : IsTotal String strLeP where
  total a b := by
    have h : ∀ x y : List Char, listCharLe x y = true ∨ listCharLe y x = true := by
      intro x
      induction x with
      | nil => intro y; left; rfl
      | cons c x ih =>
        intro y
        cases y with
        | nil => right; rfl
        | cons d y =>
          by_cases hcd : c < d
          · left; simp [listCharLe, hcd]
          · by_cases hdc : d < c
            · right; simp [listCharLe, hdc]
            · rcases ih y with h | h
              · left; simp [listCharLe, hcd, hdc, h]
              · right; simp [listCharLe, hcd, hdc, h]
    exact h a.data b.data

instance : IsTrans String strLeP where
  trans a b c hab hbc := by
    have h : ∀ x y z : List Char, listCharLe x y = true → listCharLe y z = true →
        listCharLe x z = true := by
      intro x
      induction x with
      | nil => intro y z _ _; rfl
      | cons cx x ih =>
        intro y z hxy hyz
        cases y with
        | nil => simp [listCharLe] at hxy
        | cons cy y =>
          cases z with
          | nil => simp [listCharLe] at hyz
          | cons cz z =>
            simp only [listCharLe] at hxy hyz ⊢
            by_cases h1 : cx < cy
            · by_cases h2 : cy < cz
              · simp [lt_trans h1 h2]
              · by_cases h3 : cz < cy
                · simp [h2, h3] at hyz
                · have : cy = cz := le_antisymm (le_of_not_lt h3) (le_of_not_lt h2)
                  subst this
                  simp [h1]
            · by_cases h1' : cy < cx
              · simp [h1, h1'] at hxy
              · have hxy' : cx = cy := le_antisymm (le_of_not_lt h1') (le_of_not_lt h1)
                subst hxy'
                rw [if_neg (lt_irrefl cx), if_neg (lt_irrefl cx)] at hxy
                by_cases h2 : cx < cz
                · simp [h2]
                · by_cases h3 : cz < cx
                  · simp [h2, h3] at hyz
                  · rw [if_neg h2, if_neg h3] at hyz
                    rw [if_neg h2, if_neg h3]
                    exact ih y z hxy hyz
    exact h a.data b.data c.data hab hbc

/-- A filesystem, as an association list from paths to file contents. -/
abbrev FS := List (String × String)

/-- Python `path.open("w")` followed by writing `content`: create or truncate the
file at `path`, then write; an existing file is silently replaced. -/
def pyWriteFile (fs : FS) (path content : String) : FS :=
  fs.filter (fun e => !(e.1 == path)) ++ [(path, content)]

/-- Source line 28: `filestem = f"..."`, the concatenation of the rule's code
elements.  (The argument is named `pfx` for the script's `--prefix` parameter.) -/
def fileStem (pfx code : String) : String := pfx ++ code

/-- Source lines 29–35: the fixture file is created as `<filestem>.f90` (opened in
append mode, so simply created empty when absent). -/
def fixtureFileName (stem : String) : String := stem ++ ".f90"

/-- Source line 49: the exact anchor the test-registration pass searches for
(compared against each line's `strip()`). -/
def anchorLine : String := "fn rules(rule_code: Rule, path: &Path) -> Result<()> \x7b"

/-- Source line 53: the path argument of the generated `test_case` annotation.
Note the hard-coded `.py` extension. -/
def testcasePathArg (stem : String) : String := stem ++ ".py"

/-- Source lines 52–54: the generated annotation line
`#[test_case(Rule::<name>, Path::new("<stem>.py"))]` with the given indentation. -/
def testcaseLine (indent name stem : String) : String :=
  indent ++ "#[test_case(Rule::" ++ name ++ ", Path::new(\"" ++
    testcasePathArg stem ++ "\"))]"

/-- Loop state of the rewrite at source lines 44–68: whether the annotation has been
emitted, the buffered contiguous non-blank lines (`lines`), and the lines written to
the output file so far. -/
structure TCState where
  hasAdded : Bool
  buffer : List String
  out : List String
deriving DecidableEq

/-- One iteration of the loop at source lines 47–68.  Output is tracked as a list of
lines, each standing for that line followed by a newline in the written file:
the anchor branch writes `"\n".join(lines)` then `"\n"` (so the buffer plus the new
annotation, all terminated); the copy branch writes `line` then `"\n"`; the blank
branch writes `"\n".join(lines)` then `"\n\n"`, which is `buffer` plus one blank
line when the buffer is non-empty but two blank lines when it is empty. -/
def tcStep (name stem : String) (s : TCState) (line : String) : TCState :=
  let s1 :=
    if !s.hasAdded && (pyStrip line == anchorLine) then
      { hasAdded := true
        buffer := []
        out := s.out ++ s.buffer ++ [testcaseLine (get_indent line) name stem] }
    else s
  if s1.hasAdded then
    { s1 with out := s1.out ++ [line] }
  else if pyStrip line == "" then
    { s1 with
      buffer := []
      out := s1.out ++ (if s1.buffer.isEmpty then ["", ""] else s1.buffer ++ [""]) }
  else
    { s1 with buffer := s1.buffer ++ [line] }

/-- Source lines 41–68: rewrite of the category `mod.rs` that adds the `test_case`
annotation.  The input is the file's content as `splitlines()` produces it; the
result is the list of lines written back.  A buffer still pending when the loop ends
is discarded, exactly as in the source. -/
def addTestcase (name stem : String) (ls : List String) : List String :=
  (ls.foldl (tcStep name stem) ⟨false, [], []⟩).out

/-- Source line 77: `new_pub_use` (the trailing semicolon is appended separately). -/
def newPubUse (snake : String) : String := "pub(crate) use " ++ snake ++ "::*"

/-- Source line 78: `new_mod`. -/
def newMod (snake : String) : String := "mod " ++ snake ++ ";"

/-- Source lines 74–93: the export section.  The content is split on the blank-line
separator; with exactly two parts, the `pub use` line is appended to the end of the
first part and the `mod` line to the end of the second; otherwise both lines are
appended at the end of the file. -/
def addExports (contents snake : String) : String :=
  match pySplitBlank contents with
  | [p0, p1] =>
      p0 ++ "\n" ++ newPubUse snake ++ ";" ++ "\n\n" ++ p1 ++ newMod snake ++ "\n"
  | _ => contents ++ (newPubUse snake ++ ";") ++ "\n\n" ++ newMod snake ++ "\n"

/-- Source line 96: the stub implementation file path `<rules_dir>/<snake>.rs`. -/
def stubFilePath (rulesDir snake : String) : String := rulesDir ++ "/" ++ snake ++ ".rs"

/-- Source lines 97–143: the stub file template, with `name` interpolated.  Rust
braces are written as `\x7b`/`\x7d` and apostrophes as `\x27`. -/
def stubTemplate (name : String) : String :=
  "use crate::ast::FortitudeNode;\n" ++
  "use crate::settings::Settings;\n" ++
  "use crate::\x7bAstRule, FromAstNode\x7d;\n" ++
  "use ruff_diagnostics::\x7bDiagnostic, Edit, Fix, FixAvailability, Violation\x7d;\n" ++
  "use ruff_macros::\x7bderive_message_formats, ViolationMetadata\x7d;\n" ++
  "use ruff_source_file::SourceFile;\n" ++
  "use ruff_text_size::TextSize;\n" ++
  "use tree_sitter::Node;\n" ++
  "\n" ++
  "/// ## What it does\n" ++
  "///\n" ++
  "/// ## Why is this bad?\n" ++
  "///\n" ++
  "/// ## Example\n" ++
  "/// ```f90\n" ++
  "/// ```\n" ++
  "///\n" ++
  "/// Use instead:\n" ++
  "/// ```f90\n" ++
  "/// ```\n" ++
  "#[derive(ViolationMetadata)]\n" ++
  "pub(crate) struct " ++ name ++ ";\n" ++
  "\n" ++
  "impl Violation for " ++ name ++ " \x7b\n" ++
  "    #[derive_message_formats]\n" ++
  "    fn message(&self) -> String \x7b\n" ++
  "        format!(\"TODO: write message: \x7b\x7d\", todo!(\"implement message\"))\n" ++
  "    \x7d\n" ++
  "\x7d\n" ++
  "\n" ++
  "impl AstRule for " ++ name ++ " \x7b\n" ++
  "    fn check<\x27a>(\n" ++
  "        _settings: &Settings,\n" ++
  "        node: &\x27a Node,\n" ++
  "        src: &\x27a SourceFile,\n" ++
  "    ) -> Option<Vec<Diagnostic>> \x7b\n" ++
  "        None\n" ++
  "    \x7d\n" ++
  "\n" ++
  "    fn entrypoints() -> Vec<&\x27static str> \x7b\n" ++
  "        vec![]\n" ++
  "    \x7d\n" ++
  "\x7d\n"

/-- Source line 96: the stub file is opened with mode `"w"` — create or truncate —
and the template is written; an existing file at the path is replaced. -/
def createStub (fs : FS) (rulesDir snake name : String) : FS :=
  pyWriteFile fs (stubFilePath rulesDir snake) (stubTemplate name)

/-- Failures of the dispatch-table pass (source lines 145–166).  In the source both
arise as an uncaught `StopIteration` from `next(fp)`; the spec's error taxonomy
names the first `CategoryMarkerNotFound`. -/
inductive DispatchError where
  | categoryMarkerNotFound
  | missingBlankAfterBlock
deriving DecidableEq

/-- Split a list of lines at the first line satisfying `p`: the lines before it, the
matching line, and the lines after it; `none` when no line matches (in the source,
`next(fp)` then raises `StopIteration`). -/
def splitAtFirst (p : String → Bool) : List String → Option (List String × String × List String)
  | [] => none
  | l :: ls =>
    if p l then some ([], l, ls)
    else
      match splitAtFirst p ls with
      | none => none
      | some (pre, m, rest) => some (l :: pre, m, rest)

/-- Source line 147: the category marker line, matched against each line's `strip()`. -/
def categoryMarker (category : String) : String := "// " ++ category

/-- Source lines 155–159: the new dispatch row, eight spaces of indentation, the
category variant, the quoted code, and the fully qualified rule reference, with its
trailing newline included (buffered rows keep theirs, so the sort sees full
physical lines). -/
def dispatchNewRow (category code name : String) : String :=
  "        " ++ "(" ++ pascal_case category ++ ", \"" ++ code ++
    "\") => (RuleGroup::Preview, Ast, Optional, rules::" ++ linterName category ++
    "::rules::" ++ name ++ "),\n"

/-- Source lines 145–164: construction of the new dispatch-table text.  Lines are
physical lines (with terminators, as `next(fp)` yields them).  Everything up to and
including the marker is copied verbatim; the rows up to the first blank line are
buffered, the new row appended, the buffer sorted (`lines.sort()`, i.e. Python's
string order — `List.insertionSort strLeP` produces the same list, the unique
sorted permutation); the blank line is replaced by writing a single `"\n"`; the
remainder (`fp.read()`) is copied verbatim. -/
def dispatchPatch (category code name : String) (ls : List String) :
    Except DispatchError String :=
  match splitAtFirst (fun l => pyStrip l == categoryMarker category) ls with
  | none => .error .categoryMarkerNotFound
  | some (pre, marker, rest) =>
    match splitAtFirst (fun l => pyStrip l == "") rest with
    | none => .error .missingBlankAfterBlock
    | some (block, _blank, after) =>
      .ok (String.join pre ++ marker ++
        String.join
          (List.insertionSort strLeP (block ++ [dispatchNewRow category code name])) ++
        "\n" ++ String.join after)

/-- Source lines 145–166 at the file level: the file's content after the pass, with
the error if one occurred.  The rewrite (`open("w")` at line 165) happens only after
the new text has been fully built, so on an error the file keeps its old content. -/
def dispatchFileAfter (category code name content : String) :
    String × Option DispatchError :=
  match dispatchPatch category code name (physLines content) with
  | .ok text => (text, none)
  | .error e => (content, some e)

/-- Does `s` end with the byte sequence of `suf`? -/
def strEndsWith (s suf : String) : Bool :=
  s.data.drop (s.data.length - suf.data.length) == suf.data

example : pyStrip "  fn rules \n" = "fn rules" := by decide
example : pySplitBlank "a\n\nb\nc\n" = ["a", "b\nc\n"] := by decide
example : pySplitBlank "" = [""] := by decide
example : pySplitBlank "a\n\n\nb" = ["a", "\nb"] := by decide
example : physLines "a\nb" = ["a\n", "b"] := by decide
example : physLines "a\n" = ["a\n"] := by decide
example : linterName "obsolescent features" = "obsolescent" := by decide
example : pascal_case "error-handling" = "ErrorHandling" := by decide
example : strLe "a" "ab" = true ∧ strLe "b" "ab" = false := by decide

/-! Helper lemmas about the test-registration rewrite loop. -/

theorem tcStep_true (name stem : String) (b o : List String) (line : String) :
    tcStep name stem ⟨true, b, o⟩ line = ⟨true, b, o ++ [line]⟩ := by
  simp [tcStep]

theorem tcStep_anchor (name stem : String) (b o : List String) (line : String)
    (h : pyStrip line = anchorLine) :
    tcStep name stem ⟨false, b, o⟩ line =
      ⟨true, [], (o ++ b ++ [testcaseLine (get_indent line) name stem]) ++ [line]⟩ := by
  simp [tcStep, h]

theorem tcStep_blank (name stem : String) (b o : List String) (line : String)
    (h : pyStrip line = "") :
    tcStep name stem ⟨false, b, o⟩ line =
      ⟨false, [], o ++ (if b.isEmpty then ["", ""] else b ++ [""])⟩ := by
  have hne : (pyStrip line == anchorLine) = false := by rw [h]; decide
  have hbe : (pyStrip line == "") = true := by rw [h]; decide
  simp [tcStep, hne, hbe]

theorem tcStep_other (name stem : String) (b o : List String) (line : String)
    (h1 : pyStrip line ≠ "") (h2 : pyStrip line ≠ anchorLine) :
    tcStep name stem ⟨false, b, o⟩ line = ⟨false, b ++ [line], o⟩ := by
  have hne1 : (pyStrip line == anchorLine) = false := by simp [h2]
  have hne2 : (pyStrip line == "") = false := by simp [h1]
  simp [tcStep, hne1, hne2]

theorem foldl_tcStep_true (name stem : String) (ls : List String) (b o : List String) :
    ls.foldl (tcStep name stem) ⟨true, b, o⟩ = ⟨true, b, o ++ ls⟩ := by
  induction ls generalizing o with
  | nil => simp
  | cons l ls ih => rw [List.foldl_cons, tcStep_true, ih, List.append_assoc]; rfl

theorem foldl_tcStep_block (name stem : String) (ls : List String) (b o : List String)
    (h : ls.all (fun l => !(pyStrip l == "") && !(pyStrip l == anchorLine)) = true) :
    ls.foldl (tcStep name stem) ⟨false, b, o⟩ = ⟨false, b ++ ls, o⟩ := by
  induction ls generalizing b with
  | nil => simp
  | cons l ls ih =>
    rw [List.all_cons, Bool.and_eq_true] at h
    obtain ⟨hl, hls⟩ := h
    rw [Bool.and_eq_true, Bool.not_eq_true', Bool.not_eq_true', beq_eq_false_iff_ne,
      beq_eq_false_iff_ne] at hl
    rw [List.foldl_cons, tcStep_other name stem b o l hl.1 hl.2, ih (b ++ [l]) hls,
      List.append_assoc]
    rfl

theorem foldl_tcStep_not_added (name stem : String) (ls : List String) (b o : List String)
    (h : ls.all (fun l => !(pyStrip l == anchorLine)) = true) :
    (ls.foldl (tcStep name stem) ⟨false, b, o⟩).hasAdded = false := by
  induction ls generalizing b o with
  | nil => rfl
  | cons l ls ih =>
    rw [List.all_cons, Bool.and_eq_true] at h
    obtain ⟨hl, hls⟩ := h
    rw [Bool.not_eq_true', beq_eq_false_iff_ne] at hl
    by_cases hb : pyStrip l = ""
    · rw [List.foldl_cons, tcStep_blank name stem b o l hb]; exact ih _ _ hls
    · rw [List.foldl_cons, tcStep_other name stem b o l hb hl]; exact ih _ _ hls

theorem foldl_tcStep_mem (name stem : String) (ls : List String) (b o : List String)
    (h : ls.all (fun l => !(pyStrip l == anchorLine)) = true) :
    ∀ x, (x ∈ (ls.foldl (tcStep name stem) ⟨false, b, o⟩).out ∨
          x ∈ (ls.foldl (tcStep name stem) ⟨false, b, o⟩).buffer) →
      x ∈ o ∨ x ∈ b ∨ x ∈ ls ∨ x = "" := by
  induction ls generalizing b o with
  | nil =>
    intro x hx
    rcases hx with hx | hx
    · exact Or.inl hx
    · exact Or.inr (Or.inl hx)
  | cons l ls ih =>
    rw [List.all_cons, Bool.and_eq_true] at h
    obtain ⟨hl, hls⟩ := h
    rw [Bool.not_eq_true', beq_eq_false_iff_ne] at hl
    intro x hx
    by_cases hb : pyStrip l = ""
    · rw [List.foldl_cons, tcStep_blank name stem b o l hb] at hx
      rcases ih _ _ hls x hx with hx | hx | hx | hx
      · rcases List.mem_append.1 hx with hx | hx
        · exact Or.inl hx
        · by_cases hbe : b.isEmpty
          · rw [if_pos hbe] at hx
            simp at hx
            exact Or.inr (Or.inr (Or.inr hx))
          · rw [if_neg hbe] at hx
            rcases List.mem_append.1 hx with hx | hx
            · exact Or.inr (Or.inl hx)
            · simp at hx
              exact Or.inr (Or.inr (Or.inr hx))
      · exact absurd hx (List.not_mem_nil x)
      · exact Or.inr (Or.inr (Or.inl (List.mem_cons_of_mem l hx)))
      · exact Or.inr (Or.inr (Or.inr hx))
    · rw [List.foldl_cons, tcStep_other name stem b o l hb hl] at hx
      rcases ih _ _ hls x hx with hx | hx | hx | hx
      · exact Or.inl hx
      · rcases List.mem_append.1 hx with hx | hx
        · exact Or.inr (Or.inl hx)
        · simp at hx
          exact Or.inr (Or.inr (Or.inl (by rw [hx]; exact List.mem_cons_self l ls)))
      · exact Or.inr (Or.inr (Or.inl (List.mem_cons_of_mem l hx)))
      · exact Or.inr (Or.inr (Or.inr hx))

/-! Helper lemmas about scanning for a marker line and about file writes. -/

theorem splitAtFirst_none (p : String → Bool) (ls : List String)
    (h : ls.all (fun l => !(p l)) = true) : splitAtFirst p ls = none := by
  induction ls with
  | nil => rfl
  | cons l ls ih =>
    rw [List.all_cons, Bool.and_eq_true] at h
    obtain ⟨hl, hls⟩ := h
    rw [Bool.not_eq_true'] at hl
    rw [splitAtFirst, if_neg (by simp [hl]), ih hls]

theorem splitAtFirst_append (p : String → Bool) (pre : List String) (m : String)
    (rest : List String) (hpre : pre.all (fun l => !(p l)) = true) (hm : p m = true) :
    splitAtFirst p (pre ++ m :: rest) = some (pre, m, rest) := by
  induction pre with
  | nil => simp [splitAtFirst, hm]
  | cons l pre ih =>
    rw [List.all_cons, Bool.and_eq_true] at hpre
    obtain ⟨hl, hpre⟩ := hpre
    rw [Bool.not_eq_true'] at hl
    rw [List.cons_append, splitAtFirst, if_neg (by simp [hl]), ih hpre]


theorem lookup_pyWriteFile (fs : FS) (path content : String) :
    (pyWriteFile fs path content).lookup path = some content := by
  induction fs with
  | nil => simp [pyWriteFile, List.lookup]
  | cons e fs ih =>
    obtain ⟨k, v⟩ := e
    by_cases hk : k = path
    · have heq : pyWriteFile ((k, v) :: fs) path content = pyWriteFile fs path content := by
        rw [pyWriteFile, pyWriteFile, List.filter_cons, if_neg (by simp [hk])]
      rw [heq]
      exact ih
    · have heq : pyWriteFile ((k, v) :: fs) path content =
          (k, v) :: pyWriteFile fs path content := by
        rw [pyWriteFile, pyWriteFile, List.filter_cons, if_pos (by simp [hk]),
          List.cons_append]
      have hbe : (path == k) = false := beq_eq_false_iff_ne.mpr (Ne.symm hk)
      rw [heq]
      simp only [List.lookup, hbe]
      exact ih

/-! Helper lemmas about the blank-line split used by the export section. -/

theorem hasNN_cons2 (c d : Char) (rest : List Char) :
    hasNN (c :: d :: rest) = ((c == '\n' && d == '\n') || hasNN (d :: rest)) := rfl

theorem splitBlankAux_cons2 (c d : Char) (rest acc : List Char) :
    splitBlankAux (c :: d :: rest) acc =
      if c == '\n' && d == '\n' then acc.reverse :: splitBlankAux rest []
      else splitBlankAux (d :: rest) (c :: acc) := rfl

theorem hasNN_append (xs zs : List Char)
    (h : xs.all (fun c => !(c == '\n')) = true) : hasNN (xs ++ zs) = hasNN zs := by
  induction xs with
  | nil => rfl
  | cons c xs ih =>
    rw [List.all_cons, Bool.and_eq_true] at h
    obtain ⟨hc, hxs⟩ := h
    rw [Bool.not_eq_true'] at hc
    cases xs with
    | nil =>
      cases zs with
      | nil => rfl
      | cons d zs => simp [hasNN_cons2, hc]
    | cons d xs' =>
      rw [List.cons_append, List.cons_append, hasNN_cons2]
      rw [List.cons_append] at ih
      rw [ih hxs, hc]
      simp

theorem splitBlankAux_last (xs : List Char) (acc : List Char) (h : hasNN xs = false) :
    splitBlankAux xs acc = [acc.reverse ++ xs] := by
  induction xs generalizing acc with
  | nil => simp [splitBlankAux]
  | cons c xs ih =>
    cases xs with
    | nil => simp [splitBlankAux]
    | cons d xs' =>
      rw [hasNN_cons2, Bool.or_eq_false_iff] at h
      obtain ⟨hcd, h'⟩ := h
      rw [splitBlankAux_cons2, if_neg (by simp [hcd]), ih _ h']
      simp

theorem splitBlankAux_push (xs : List Char) (acc s : List Char)
    (h : hasNN (xs ++ ['\n']) = false) :
    splitBlankAux (xs ++ '\n' :: '\n' :: s) acc =
      (acc.reverse ++ xs) :: splitBlankAux s [] := by
  induction xs generalizing acc with
  | nil =>
    rw [List.nil_append, splitBlankAux_cons2, if_pos (by decide)]
    simp
  | cons c xs ih =>
    cases xs with
    | nil =>
      rw [show ([c] ++ ['\n']) = [c, '\n'] from rfl, hasNN_cons2, Bool.or_eq_false_iff] at h
      obtain ⟨hc, _⟩ := h
      have hc' : (c == '\n') = false := by
        cases hcc : c == '\n'
        · rfl
        · rw [hcc] at hc; simp at hc
      rw [show ([c] ++ '\n' :: '\n' :: s) = c :: '\n' :: '\n' :: s from rfl,
        splitBlankAux_cons2, if_neg (by simp [hc']), splitBlankAux_cons2,
        if_pos (by decide)]
      simp
    | cons d xs' =>
      rw [show ((c :: d :: xs') ++ ['\n']) = c :: d :: (xs' ++ ['\n']) from rfl,
        hasNN_cons2, Bool.or_eq_false_iff] at h
      obtain ⟨hcd, h'⟩ := h
      rw [show ((c :: d :: xs') ++ '\n' :: '\n' :: s) =
          c :: d :: (xs' ++ '\n' :: '\n' :: s) from rfl,
        splitBlankAux_cons2, if_neg (by simp [hcd])]
      have ih' := ih (c :: acc) h'
      rw [show ((d :: xs') ++ '\n' :: '\n' :: s) = d :: (xs' ++ '\n' :: '\n' :: s) from rfl]
        at ih'
      rw [ih']
      simp

theorem interNL_cons2 (l l' : String) (ls : List String) :
    interNL (l :: l' :: ls) = l ++ "\n" ++ interNL (l' :: ls) := rfl

theorem interNL_cons_data (l : String) (L : List String) :
    ∃ t, (interNL (l :: L)).data = l.data ++ t := by
  cases L with
  | nil => exact ⟨[], by simp [interNL]⟩
  | cons l' L' =>
    refine ⟨'\n' :: (interNL (l' :: L')).data, ?_⟩
    rw [interNL_cons2, String.data_append, String.data_append, List.append_assoc]
    rfl

theorem interNL_nn_free (E : List String) (h : E.all niceLine = true) :
    hasNN ((interNL E).data ++ ['\n']) = false := by
  induction E with
  | nil => rfl
  | cons l E ih =>
    rw [List.all_cons, Bool.and_eq_true] at h
    obtain ⟨hl, hE⟩ := h
    rw [niceLine, Bool.and_eq_true] at hl
    obtain ⟨hl1, hl2⟩ := hl
    cases E with
    | nil =>
      rw [show interNL [l] = l from rfl, hasNN_append l.data ['\n'] hl2]
      rfl
    | cons l' E' =>
      rw [interNL_cons2, String.data_append, String.data_append,
        show ("\n" : String).data = ['\n'] from rfl, List.append_assoc,
        List.append_assoc, List.singleton_append, hasNN_append l.data _ hl2]
      have hl' : niceLine l' = true := by
        rw [List.all_cons, Bool.and_eq_true] at hE
        exact hE.1
      rw [niceLine, Bool.and_eq_true] at hl'
      obtain ⟨hl'1, hl'2⟩ := hl'
      obtain ⟨t, ht⟩ := interNL_cons_data l' E'
      cases hld : l'.data with
      | nil => rw [hld] at hl'1; simp at hl'1
      | cons c cs =>
        have hc : (c == '\n') = false := by
          rw [hld, List.all_cons, Bool.and_eq_true] at hl'2
          have := hl'2.1
          rw [Bool.not_eq_true'] at this
          exact this
        rw [ht, hld, List.cons_append, List.cons_append, hasNN_cons2, hc]
        rw [ht, hld, List.cons_append] at ih
        simp only [Bool.and_false, Bool.false_or]
        exact ih hE

theorem pySplitBlank_blocks (E D : List String)
    (hE : E.all niceLine = true) (hD : D.all niceLine = true) :
    pySplitBlank (interNL E ++ "\n\n" ++ (interNL D ++ "\n")) =
      [interNL E, interNL D ++ "\n"] := by
  have hdata : (interNL E ++ "\n\n" ++ (interNL D ++ "\n")).data =
      (interNL E).data ++ '\n' :: '\n' :: ((interNL D).data ++ ['\n']) := by
    rw [String.data_append, String.data_append, String.data_append,
      show ("\n\n" : String).data = ['\n', '\n'] from rfl,
      show ("\n" : String).data = ['\n'] from rfl, List.append_assoc]
    rfl
  rw [pySplitBlank, hdata, splitBlankAux_push _ _ _ (interNL_nn_free E hE),
    splitBlankAux_last _ _ (interNL_nn_free D hD)]
  simp only [List.reverse_nil, List.nil_append, List.map_cons, List.map_nil]
  rfl

theorem interNL_append_last (L : List String) (x : String) (h : L ≠ []) :
    interNL (L ++ [x]) = interNL L ++ "\n" ++ x := by
  induction L with
  | nil => cases h rfl
  | cons l L ih =>
    cases L with
    | nil => rfl
    | cons l' L' =>
      rw [show ((l :: l' :: L') ++ [x]) = l :: l' :: (L' ++ [x]) from rfl, interNL_cons2]
      rw [show ((l' :: L') ++ [x]) = l' :: (L' ++ [x]) from rfl] at ih
      rw [ih (by simp), interNL_cons2]
      simp [String.append_assoc]

/-! Helper lemma for the dispatch-table patcher. -/

theorem dispatchPatch_eq (category code name : String) (pre block after : List String)
    (m blank : String)
    (hpre : pre.all (fun l => !(pyStrip l == categoryMarker category)) = true)
    (hm : (pyStrip m == categoryMarker category) = true)
    (hblock : block.all (fun l => !(pyStrip l == "")) = true)
    (hblank : (pyStrip blank == "") = true) :
    dispatchPatch category code name (pre ++ m :: (block ++ blank :: after)) =
      .ok (String.join pre ++ m ++
        String.join
          (List.insertionSort strLeP (block ++ [dispatchNewRow category code name])) ++
        "\n" ++ String.join after) := by
  simp only [dispatchPatch, splitAtFirst_append _ _ _ _ hpre hm,
    splitAtFirst_append _ _ _ _ hblock hblank]

/-! The claims. -/

/-- C1 (corrected): the stub-creation step never fails with `FileAlreadyExists`.  It
opens the derived module path with mode `"w"` (source line 96), which creates or
truncates, so after the step the file at that path always holds the freshly rendered
template — an existing file, including one left by a previous invocation with the
same identity, is silently overwritten; a second identical invocation succeeds at
this step rather than failing. -/
theorem claim_C1_stub_overwrites (fs : FS) (rulesDir snake name : String) :
    (createStub fs rulesDir snake name).lookup (stubFilePath rulesDir snake) =
      some (stubTemplate name) := by
  rw [createStub]
  exact lookup_pyWriteFile fs _ _

/-- C1 counterexample: with a hand-written rule file already present at the derived
module path, the stub step raises no error and silently replaces the file's content
with the template, contradicting the claimed `FileAlreadyExists` failure. -/
theorem claim_C1_counterexample :
    (createStub [(stubFilePath "fortitude/src/rules/correctness" "my_rule",
        "! hand-written rule")] "fortitude/src/rules/correctness" "my_rule"
        "MyRule").lookup (stubFilePath "fortitude/src/rules/correctness" "my_rule") =
      some (stubTemplate "MyRule") ∧
    stubTemplate "MyRule" ≠ "! hand-written rule" := by
  constructor
  · rfl
  · decide

/-- C9 (confirmed): the annotation written by the test-registration step references
the fixture path `<file_stem>.py` (source line 53), while the fixture file created by
the same invocation is `<file_stem>.f90` (source lines 28–35); for every file stem
the two paths differ, so the annotation never references the fixture file actually
created. -/
theorem claim_C9_extension_mismatch (pfx code : String) :
    testcasePathArg (fileStem pfx code) ≠ fixtureFileName (fileStem pfx code) := by
  intro h
  have h' := congrArg String.data h
  simp only [testcasePathArg, fixtureFileName, String.data_append] at h'
  exact absurd (List.append_cancel_left h') (by decide)

/-- C7 (corrected): when the module-index content does not split into exactly two
blank-line-separated parts — including an empty file — the export step does not fail
with `MalformedIndex`; instead it appends the export line, a blank separator, and the
module-declaration line at the end of the file (source lines 88–93). -/
theorem claim_C7_fallback_appends (contents snake : String)
    (h : (pySplitBlank contents).length ≠ 2) :
    addExports contents snake =
      contents ++ (newPubUse snake ++ ";") ++ "\n\n" ++ newMod snake ++ "\n" := by
  rcases hps : pySplitBlank contents with _ | ⟨a, _ | ⟨b, _ | ⟨c, l⟩⟩⟩
  · simp only [addExports, hps]
  · simp only [addExports, hps]
  · exact absurd (by rw [hps]; rfl) h
  · simp only [addExports, hps]

/-- C7 witness: the general fallback theorem applied to the empty module-index file. -/
theorem claim_C7_witness :
    (pySplitBlank "").length ≠ 2 ∧
    addExports "" "my_rule" =
      "" ++ (newPubUse "my_rule" ++ ";") ++ "\n\n" ++ newMod "my_rule" ++ "\n" :=
  ⟨by decide, claim_C7_fallback_appends "" "my_rule" (by decide)⟩

/-- C7 counterexample: on an empty module-index file the patcher does not fail with
`MalformedIndex`; it rewrites the file, appending the export and module lines. -/
theorem claim_C7_counterexample :
    addExports "" "my_rule" = "pub(crate) use my_rule::*;\n\nmod my_rule;\n" ∧
    addExports "" "my_rule" ≠ "" := by
  constructor
  · rfl
  · decide

/-- C3 (corrected): the module-index patcher does not insert into sorted position.
With content made of an export block `E` and a declaration block `D` separated by a
blank line, it appends the new export line at the end of `E` and the new
module-declaration line at the end of `D` (source lines 80–87); the blocks therefore
stay sorted only when the new lines happen to sort last.  In particular a declaration
block `["mod a;", "mod c;"]` with new rule `b` becomes `["mod a;", "mod c;", "mod b;"]`,
not `["mod a;", "mod b;", "mod c;"]`. -/
theorem claim_C3_appends_to_block_ends (E D : List String) (snake : String)
    (hE : E.all niceLine = true) (hD : D.all niceLine = true)
    (hEne : E.isEmpty = false) (hDne : D.isEmpty = false) :
    addExports (interNL E ++ "\n\n" ++ (interNL D ++ "\n")) snake =
      interNL (E ++ [newPubUse snake ++ ";"]) ++ "\n\n" ++
        (interNL (D ++ [newMod snake]) ++ "\n") := by
  have hsplit := pySplitBlank_blocks E D hE hD
  simp only [addExports, hsplit]
  rw [interNL_append_last E _ (by cases E with
        | nil => simp at hEne
        | cons e E => simp),
      interNL_append_last D _ (by cases D with
        | nil => simp at hDne
        | cons d D => simp)]
  simp [String.append_assoc]

/-- C3 witness: the general append theorem applied to the claim's own example
content (export block for `a`, `c` and declaration block `mod a;`, `mod c;`). -/
theorem claim_C3_witness :
    (["pub(crate) use a::*;", "pub(crate) use c::*;"].all niceLine = true) ∧
    (["mod a;", "mod c;"].all niceLine = true) ∧
    (["pub(crate) use a::*;", "pub(crate) use c::*;"].isEmpty = false) ∧
    (["mod a;", "mod c;"].isEmpty = false) ∧
    addExports (interNL ["pub(crate) use a::*;", "pub(crate) use c::*;"] ++ "\n\n" ++
        (interNL ["mod a;", "mod c;"] ++ "\n")) "b" =
      interNL (["pub(crate) use a::*;", "pub(crate) use c::*;"] ++
          [newPubUse "b" ++ ";"]) ++ "\n\n" ++
        (interNL (["mod a;", "mod c;"] ++ [newMod "b"]) ++ "\n") :=
  ⟨by decide, by decide, by decide, by decide,
    claim_C3_appends_to_block_ends _ _ "b" (by decide) (by decide) (by decide) (by decide)⟩

/-- C3 counterexample: on the claim's own example the patched declaration block is
`mod a; mod c; mod b;` — the new line is appended, not sorted into place, so the
output differs from the sorted output the claim requires. -/
theorem claim_C3_counterexample :
    addExports "pub(crate) use a::*;\npub(crate) use c::*;\n\nmod a;\nmod c;\n" "b" =
      "pub(crate) use a::*;\npub(crate) use c::*;\npub(crate) use b::*;\n\nmod a;\nmod c;\nmod b;\n" ∧
    addExports "pub(crate) use a::*;\npub(crate) use c::*;\n\nmod a;\nmod c;\n" "b" ≠
      "pub(crate) use a::*;\npub(crate) use b::*;\npub(crate) use c::*;\n\nmod a;\nmod b;\nmod c;\n" := by
  constructor
  · decide
  · decide

/-- C5 (confirmed): when no line of the dispatch-table file strips to the category
marker `// <category>`, the scan fails before the rewrite is ever reached — in the
source an uncaught `StopIteration` from `next(fp)` at line 147, the failure the
spec's taxonomy names `CategoryMarkerNotFound` — and the file keeps its previous
content byte for byte; there is no fallback that appends the row at end of file. -/
theorem claim_C5_marker_missing_fails (category code name content : String)
    (h : (physLines content).all
      (fun l => !(pyStrip l == categoryMarker category)) = true) :
    dispatchFileAfter category code name content =
      (content, some DispatchError.categoryMarkerNotFound) := by
  simp only [dispatchFileAfter, dispatchPatch, splitAtFirst_none _ _ h]

/-- C5 witness: a dispatch table without the `// correctness` marker is left
unmodified and the patch reports the marker failure. -/
theorem claim_C5_witness :
    ((physLines "// style\nrow\n\ntail\n").all
      (fun l => !(pyStrip l == categoryMarker "correctness")) = true) ∧
    dispatchFileAfter "correctness" "200" "Bar" "// style\nrow\n\ntail\n" =
      ("// style\nrow\n\ntail\n", some DispatchError.categoryMarkerNotFound) :=
  ⟨by decide, claim_C5_marker_missing_fails "correctness" "200" "Bar" _ (by decide)⟩

/-- C4 (confirmed): with the category marker present and a blank line closing the
block of rows after it, the patcher emits everything up to and including the marker
verbatim, then the block of buffered rows with the newly rendered row (embedding the
category variant, the quoted code, and the fully qualified rule reference) included,
the whole block re-sorted lexicographically over full rendered row text, then the
remainder verbatim. -/
theorem claim_C4_row_inserted_sorted (category code name : String)
    (pre block after : List String) (m blank : String)
    (hpre : pre.all (fun l => !(pyStrip l == categoryMarker category)) = true)
    (hm : (pyStrip m == categoryMarker category) = true)
    (hblock : block.all (fun l => !(pyStrip l == "")) = true)
    (hblank : (pyStrip blank == "") = true) :
    dispatchPatch category code name (pre ++ m :: (block ++ blank :: after)) =
      .ok (String.join pre ++ m ++
        String.join (List.insertionSort strLeP
          (block ++ [dispatchNewRow category code name])) ++
        "\n" ++ String.join after) ∧
    List.Perm (List.insertionSort strLeP (block ++ [dispatchNewRow category code name]))
      (block ++ [dispatchNewRow category code name]) ∧
    List.Sorted strLeP (List.insertionSort strLeP
      (block ++ [dispatchNewRow category code name])) :=
  ⟨dispatchPatch_eq category code name pre block after m blank hpre hm hblock hblank,
   List.perm_insertionSort strLeP _,
   List.sorted_insertionSort strLeP _⟩

/-- C4 witness: rows keyed `"100"` and `"300"` plus a new row keyed `"200"`; the
general theorem applies, and the sorted block places the `"200"` row between them. -/
theorem claim_C4_witness :
    (([] : List String).all
      (fun l => !(pyStrip l == categoryMarker "correctness")) = true) ∧
    (pyStrip "// correctness\n" == categoryMarker "correctness") = true ∧
    (["        (Correctness, \"100\") => (RuleGroup::Preview, Ast, Optional, rules::correctness::rules::Foo),\n",
      "        (Correctness, \"300\") => (RuleGroup::Preview, Ast, Optional, rules::correctness::rules::Baz),\n"].all
      (fun l => !(pyStrip l == "")) = true) ∧
    (pyStrip "\n" == "") = true ∧
    List.insertionSort strLeP
      (["        (Correctness, \"100\") => (RuleGroup::Preview, Ast, Optional, rules::correctness::rules::Foo),\n",
        "        (Correctness, \"300\") => (RuleGroup::Preview, Ast, Optional, rules::correctness::rules::Baz),\n"] ++
        [dispatchNewRow "correctness" "200" "Bar"]) =
      ["        (Correctness, \"100\") => (RuleGroup::Preview, Ast, Optional, rules::correctness::rules::Foo),\n",
       "        (Correctness, \"200\") => (RuleGroup::Preview, Ast, Optional, rules::correctness::rules::Bar),\n",
       "        (Correctness, \"300\") => (RuleGroup::Preview, Ast, Optional, rules::correctness::rules::Baz),\n"] ∧
    (dispatchPatch "correctness" "200" "Bar"
        ([] ++ "// correctness\n" ::
          (["        (Correctness, \"100\") => (RuleGroup::Preview, Ast, Optional, rules::correctness::rules::Foo),\n",
            "        (Correctness, \"300\") => (RuleGroup::Preview, Ast, Optional, rules::correctness::rules::Baz),\n"] ++
            "\n" :: ["tail\n"])) =
      .ok (String.join [] ++ "// correctness\n" ++
        String.join (List.insertionSort strLeP
          (["        (Correctness, \"100\") => (RuleGroup::Preview, Ast, Optional, rules::correctness::rules::Foo),\n",
            "        (Correctness, \"300\") => (RuleGroup::Preview, Ast, Optional, rules::correctness::rules::Baz),\n"] ++
            [dispatchNewRow "correctness" "200" "Bar"])) ++
        "\n" ++ String.join ["tail\n"]) ∧
      List.Perm (List.insertionSort strLeP
          (["        (Correctness, \"100\") => (RuleGroup::Preview, Ast, Optional, rules::correctness::rules::Foo),\n",
            "        (Correctness, \"300\") => (RuleGroup::Preview, Ast, Optional, rules::correctness::rules::Baz),\n"] ++
            [dispatchNewRow "correctness" "200" "Bar"]))
        (["        (Correctness, \"100\") => (RuleGroup::Preview, Ast, Optional, rules::correctness::rules::Foo),\n",
          "        (Correctness, \"300\") => (RuleGroup::Preview, Ast, Optional, rules::correctness::rules::Baz),\n"] ++
          [dispatchNewRow "correctness" "200" "Bar"]) ∧
      List.Sorted strLeP (List.insertionSort strLeP
        (["        (Correctness, \"100\") => (RuleGroup::Preview, Ast, Optional, rules::correctness::rules::Foo),\n",
          "        (Correctness, \"300\") => (RuleGroup::Preview, Ast, Optional, rules::correctness::rules::Baz),\n"] ++
          [dispatchNewRow "correctness" "200" "Bar"]))) :=
  ⟨by decide, by decide, by decide, by decide, by decide,
    claim_C4_row_inserted_sorted "correctness" "200" "Bar" []
      _ ["tail\n"] "// correctness\n" "\n" (by decide) (by decide) (by decide) (by decide)⟩

/-- C8 (corrected): every byte before the marker line and every byte after the
block-terminating blank line is identical before and after patching, and within the
block the only change is the inserted row plus the re-sort — but the blank line
itself is not preserved: the source consumes it and writes a bare `"\n"` in its place
(line 163), so a whitespace-only blank line is normalized, contradicting the claim
that every byte after the block survives unchanged. -/
theorem claim_C8_frame_preserved (category code name : String)
    (pre block after : List String) (m blank : String)
    (hpre : pre.all (fun l => !(pyStrip l == categoryMarker category)) = true)
    (hm : (pyStrip m == categoryMarker category) = true)
    (hblock : block.all (fun l => !(pyStrip l == "")) = true)
    (hblank : (pyStrip blank == "") = true) :
    dispatchPatch category code name (pre ++ m :: (block ++ blank :: after)) =
      .ok (String.join pre ++ m ++
        String.join (List.insertionSort strLeP
          (block ++ [dispatchNewRow category code name])) ++
        "\n" ++ String.join after) :=
  dispatchPatch_eq category code name pre block after m blank hpre hm hblock hblank

/-- C8 witness: the frame theorem applied to a table with a `// style` section, a
preceding verbatim line, and a whitespace-only blank line closing the block. -/
theorem claim_C8_witness :
    ((["header\n"] : List String).all
      (fun l => !(pyStrip l == categoryMarker "style")) = true) ∧
    (pyStrip "// style\n" == categoryMarker "style") = true ∧
    ((["        (Style, \"001\") => (RuleGroup::Preview, Ast, Optional, rules::style::rules::Foo),\n"] : List String).all
      (fun l => !(pyStrip l == "")) = true) ∧
    (pyStrip " \n" == "") = true ∧
    dispatchPatch "style" "042" "Qux"
      (["header\n"] ++ "// style\n" ::
        (["        (Style, \"001\") => (RuleGroup::Preview, Ast, Optional, rules::style::rules::Foo),\n"] ++
          " \n" :: ["tail\n"])) =
      .ok (String.join ["header\n"] ++ "// style\n" ++
        String.join (List.insertionSort strLeP
          (["        (Style, \"001\") => (RuleGroup::Preview, Ast, Optional, rules::style::rules::Foo),\n"] ++
            [dispatchNewRow "style" "042" "Qux"])) ++
        "\n" ++ String.join ["tail\n"]) :=
  ⟨by decide, by decide, by decide, by decide,
    claim_C8_frame_preserved "style" "042" "Qux" ["header\n"] _ ["tail\n"]
      "// style\n" " \n" (by decide) (by decide) (by decide) (by decide)⟩

set_option maxRecDepth 4096 in
/-- C8 counterexample: a dispatch table whose block ends in a whitespace-only blank
line `" \n"`.  The patch succeeds, yet the output no longer ends with the input's
post-block bytes `" \ntail\n"` — the blank line was rewritten as `"\n"` — so the
bytes after the block are not identical before and after patching. -/
theorem claim_C8_counterexample :
    (dispatchFileAfter "style" "042" "Qux"
      "// style\n        (Style, \"001\") => (RuleGroup::Preview, Ast, Optional, rules::style::rules::Foo),\n \ntail\n").2 =
      none ∧
    strEndsWith
      "// style\n        (Style, \"001\") => (RuleGroup::Preview, Ast, Optional, rules::style::rules::Foo),\n \ntail\n"
      " \ntail\n" = true ∧
    strEndsWith
      (dispatchFileAfter "style" "042" "Qux"
        "// style\n        (Style, \"001\") => (RuleGroup::Preview, Ast, Optional, rules::style::rules::Foo),\n \ntail\n").1
      " \ntail\n" = false := by
  refine ⟨?_, ?_, ?_⟩
  · decide
  · decide
  · decide

/-- C2 (corrected): when the anchor is present, exactly one annotation line
`#[test_case(Rule::<name>, Path::new("<file_stem>.py"))]` — with the hard-coded
`.py` extension, not the fixture's `.f90` — is inserted immediately before the
anchor, indented like the anchor line, and *appended* after the contiguous non-blank
block that precedes the anchor (source lines 48–58).  The block is not re-sorted, so
it ends in lexicographic order only when the new line happens to sort last. -/
theorem claim_C2_annotation_appended (name stem : String)
    (init block rest : List String) (b anch : String)
    (hinit : init.all (fun l => !(pyStrip l == anchorLine)) = true)
    (hb : (pyStrip b == "") = true)
    (hblock : block.all
      (fun l => !(pyStrip l == "") && !(pyStrip l == anchorLine)) = true)
    (hanch : (pyStrip anch == anchorLine) = true) :
    addTestcase name stem (init ++ b :: (block ++ anch :: rest)) =
      addTestcase name stem (init ++ [b]) ++ block ++
        (testcaseLine (get_indent anch) name stem :: anch :: rest) := by
  have hb' : pyStrip b = "" := by rwa [beq_iff_eq] at hb
  have hanch' : pyStrip anch = anchorLine := by rwa [beq_iff_eq] at hanch
  rw [addTestcase, addTestcase]
  rcases hSI : List.foldl (tcStep name stem) ⟨false, [], []⟩ init with ⟨fl, bb, oo⟩
  have hfl : fl = false := by
    have h0 := foldl_tcStep_not_added name stem init [] [] hinit
    rw [hSI] at h0
    exact h0
  subst hfl
  rw [List.foldl_append, List.foldl_append, hSI, List.foldl_cons,
    tcStep_blank name stem bb oo b hb', List.foldl_append,
    foldl_tcStep_block name stem block [] _ hblock, List.foldl_cons,
    List.nil_append, tcStep_anchor name stem block _ anch hanch',
    foldl_tcStep_true, List.foldl_cons, tcStep_blank name stem bb oo b hb',
    List.foldl_nil]
  simp

/-- C2 witness: the append theorem applied to a file with one existing annotation
(`Rule::Beta`) directly before the anchor; the new `Rule::Alpha` annotation lands
after it, immediately before the anchor. -/
theorem claim_C2_witness :
    ((["use a;"] : List String).all (fun l => !(pyStrip l == anchorLine)) = true) ∧
    (pyStrip "" == "") = true ∧
    ((["#[test_case(Rule::Beta, Path::new(\"B001.f90\"))]"] : List String).all
      (fun l => !(pyStrip l == "") && !(pyStrip l == anchorLine)) = true) ∧
    (pyStrip "fn rules(rule_code: Rule, path: &Path) -> Result<()> \x7b" ==
      anchorLine) = true ∧
    addTestcase "Alpha" "A001"
      (["use a;"] ++ "" ::
        (["#[test_case(Rule::Beta, Path::new(\"B001.f90\"))]"] ++
          "fn rules(rule_code: Rule, path: &Path) -> Result<()> \x7b" :: ["body"])) =
      addTestcase "Alpha" "A001" (["use a;"] ++ [""]) ++
        ["#[test_case(Rule::Beta, Path::new(\"B001.f90\"))]"] ++
        (testcaseLine
            (get_indent "fn rules(rule_code: Rule, path: &Path) -> Result<()> \x7b")
            "Alpha" "A001" ::
          "fn rules(rule_code: Rule, path: &Path) -> Result<()> \x7b" :: ["body"]) :=
  ⟨by decide, by decide, by decide, by decide,
    claim_C2_annotation_appended "Alpha" "A001" ["use a;"]
      ["#[test_case(Rule::Beta, Path::new(\"B001.f90\"))]"] ["body"] ""
      "fn rules(rule_code: Rule, path: &Path) -> Result<()> \x7b"
      (by decide) (by decide) (by decide) (by decide)⟩

/-- C2 counterexample: with an existing `Rule::Beta` annotation before the anchor,
the new `Rule::Alpha` annotation is appended after it, so the annotation block
preceding the anchor is not in lexicographic order; moreover the inserted line
references `A001.py` while the fixture-file extension is `.f90`. -/
theorem claim_C2_counterexample :
    addTestcase "Alpha" "A001"
      ["#[test_case(Rule::Beta, Path::new(\"B001.f90\"))]",
       "fn rules(rule_code: Rule, path: &Path) -> Result<()> \x7b"] =
      ["#[test_case(Rule::Beta, Path::new(\"B001.f90\"))]",
       "#[test_case(Rule::Alpha, Path::new(\"A001.py\"))]",
       "fn rules(rule_code: Rule, path: &Path) -> Result<()> \x7b"] ∧
    strLe "#[test_case(Rule::Beta, Path::new(\"B001.f90\"))]"
      "#[test_case(Rule::Alpha, Path::new(\"A001.py\"))]" = false ∧
    testcasePathArg "A001" ≠ fixtureFileName "A001" := by
  refine ⟨?_, ?_, ?_⟩
  · decide
  · decide
  · decide

/-- C6 (corrected): when no line of the content strips to the anchor, the
test-registration pass does not fail with `AnchorNotFound`: the loop at source lines
47–68 simply runs to completion and the file is rewritten, every emitted line being
either a line of the input or a blank line, with no annotation inserted. -/
theorem claim_C6_no_failure_no_insertion (name stem : String) (ls : List String)
    (h : ls.all (fun l => !(pyStrip l == anchorLine)) = true) :
    (addTestcase name stem ls).all (fun x => ls.elem x || x == "") = true := by
  rw [List.all_eq_true]
  intro x hx
  have hx' : x ∈ (List.foldl (tcStep name stem) ⟨false, [], []⟩ ls).out := hx
  rcases foldl_tcStep_mem name stem ls [] [] h x (Or.inl hx') with h1 | h1 | h1 | h1
  · exact absurd h1 (List.not_mem_nil x)
  · exact absurd h1 (List.not_mem_nil x)
  · simp [List.elem_iff, h1]
  · simp [h1]

/-- C6 witness: the no-insertion theorem applied to a three-line anchor-free file. -/
theorem claim_C6_witness :
    ((["x", "", "y"] : List String).all (fun l => !(pyStrip l == anchorLine)) = true) ∧
    (addTestcase "Alpha" "A001" ["x", "", "y"]).all
      (fun x => (["x", "", "y"] : List String).elem x || x == "") = true :=
  ⟨by decide, claim_C6_no_failure_no_insertion "Alpha" "A001" ["x", "", "y"] (by decide)⟩

/-- C6 counterexample: on an anchor-free file the patcher does not fail with
`AnchorNotFound`: it produces a rewritten file (here also dropping the trailing
lines after the last blank line) instead of reporting an error. -/
theorem claim_C6_counterexample :
    addTestcase "Alpha" "A001" ["a", "", "b", "c"] = ["a", ""] ∧
    (["a", ""] : List String) ≠ ["a", "", "b", "c"] := by
  constructor
  · decide
  · decide

/-- C10 (confirmed): when the anchor line is absent, the test-registration pass still
rewrites the file without raising an error and without inserting an annotation — the
model is total, mirroring the source, which has no failure path here — and every
non-blank line after the file's last blank line is dropped: the rewritten content
equals the rewrite of the file truncated just after that blank line, and every
emitted line is a line of the input or a blank line. -/
theorem claim_C10_trailing_dropped (name stem : String) (init tail : List String)
    (b : String)
    (hinit : init.all (fun l => !(pyStrip l == anchorLine)) = true)
    (hb : (pyStrip b == "") = true)
    (htail : tail.all
      (fun l => !(pyStrip l == "") && !(pyStrip l == anchorLine)) = true) :
    addTestcase name stem (init ++ b :: tail) = addTestcase name stem (init ++ [b]) ∧
    (addTestcase name stem (init ++ b :: tail)).all
      (fun x => (init ++ b :: tail).elem x || x == "") = true := by
  have hb' : pyStrip b = "" := by rwa [beq_iff_eq] at hb
  constructor
  · rw [addTestcase, addTestcase]
    rcases hSI : List.foldl (tcStep name stem) ⟨false, [], []⟩ init with ⟨fl, bb, oo⟩
    have hfl : fl = false := by
      have h0 := foldl_tcStep_not_added name stem init [] [] hinit
      rw [hSI] at h0
      exact h0
    subst hfl
    rw [List.foldl_append, List.foldl_append, hSI, List.foldl_cons,
      tcStep_blank name stem bb oo b hb',
      foldl_tcStep_block name stem tail [] _ htail, List.foldl_cons,
      tcStep_blank name stem bb oo b hb', List.foldl_nil]
  · have hall : (init ++ b :: tail).all (fun l => !(pyStrip l == anchorLine)) = true := by
      rw [List.all_append, Bool.and_eq_true]
      refine ⟨hinit, ?_⟩
      rw [List.all_cons, Bool.and_eq_true]
      constructor
      · rw [hb']
        decide
      · rw [List.all_eq_true] at htail ⊢
        intro x hx
        have hx' := htail x hx
        rw [Bool.and_eq_true] at hx'
        exact hx'.2
    rw [List.all_eq_true]
    intro x hx
    have hx' : x ∈ (List.foldl (tcStep name stem) ⟨false, [], []⟩
        (init ++ b :: tail)).out := hx
    rcases foldl_tcStep_mem name stem (init ++ b :: tail) [] [] hall x (Or.inl hx')
      with h1 | h1 | h1 | h1
    · exact absurd h1 (List.not_mem_nil x)
    · exact absurd h1 (List.not_mem_nil x)
    · simp [List.elem_iff, h1]
    · simp [h1]

/-- C10 witness: the trailing-drop theorem applied to the file `a`, blank, `b`, `c`:
the rewrite equals the rewrite of just `a`, blank, and the trailing `b`, `c` are
gone. -/
theorem claim_C10_witness :
    ((["a"] : List String).all (fun l => !(pyStrip l == anchorLine)) = true) ∧
    (pyStrip "" == "") = true ∧
    ((["b", "c"] : List String).all
      (fun l => !(pyStrip l == "") && !(pyStrip l == anchorLine)) = true) ∧
    (addTestcase "Alpha" "A001" (["a"] ++ "" :: ["b", "c"]) =
      addTestcase "Alpha" "A001" (["a"] ++ [""]) ∧
    (addTestcase "Alpha" "A001" (["a"] ++ "" :: ["b", "c"])).all
      (fun x => ((["a"] : List String) ++ "" :: ["b", "c"]).elem x || x == "") = true) :=
  ⟨by decide, by decide, by decide,
    claim_C10_trailing_dropped "Alpha" "A001" ["a"] ["b", "c"] ""
      (by decide) (by decide) (by decide)⟩
